import Mathlib

/-!
Verification of the client-side input validation and sanitization engine
(`frontend/src/utils/inputValidation.ts`).

The engine is shallowly embedded over `List Char`.  JavaScript strings are
modelled as Lean strings (sequences of characters; the UTF-16 surrogate
representation is immaterial for the properties below, which involve only
code points).  The duck-typed inputs of the validators are modelled by
`JSVal`, covering the runtime `typeof x !== 'string'` and falsiness checks.

Each regular expression of the source is embedded as a dedicated matcher.
Every pattern of the source is deterministic under JavaScript backtracking,
because at every choice point the relevant character classes are disjoint
(for example `[^>]*` can only stop at `>`, `\w*` cannot consume `=` or
whitespace), so each matcher computes the unique backtracking result
directly; the one pattern with a live alternative, the event-handler
pattern `on\w+\s*=\s*['"]*[^'"]*['"]`, is embedded with its full
quote-backtracking case analysis.  Matchers return the remaining suffix
after the match at the current position.  Anchored whole-string patterns
(`^...$`) are embedded by their match semantics: existence of a
decomposition of the string into the anchored pieces, which coincides with
JavaScript backtracking success for these backreference-free patterns.

The shared static pattern arrays carry the `g` flag in the source, so
`RegExp.prototype.test` advances each regex object's `lastIndex`.  The
validators below use the fresh-state (all `lastIndex` zero) per-call
semantics; the mutation of `lastIndex` across calls is modelled separately
and explicitly by `runXSSTests` for the purity analysis.
-/

namespace InputVal

/-! ## Character classes (JavaScript semantics) -/

/-- ASCII lower-casing on code points; the embedded regexes all carry the
`i` flag without the `u` flag, where canonicalisation folds ASCII letters
only. -/
def lcN (n : Nat) : Nat := if 65 ≤ n ∧ n ≤ 90 then n + 32 else n

/-- Case-insensitive character comparison (non-Unicode `i`-flag mode). -/
def ciEq (a b : Char) : Bool := lcN a.toNat == lcN b.toNat

/-- Code points of the JavaScript WhiteSpace and LineTerminator productions:
the set matched by `\s` and stripped by `String.prototype.trim`. -/
def wsNats : List Nat :=
  [9, 10, 11, 12, 13, 32, 160, 5760, 8192, 8193, 8194, 8195, 8196, 8197,
   8198, 8199, 8200, 8201, 8202, 8232, 8233, 8239, 8287, 12288, 65279]

def isWS (c : Char) : Bool := decide (c.toNat ∈ wsNats)

/-- JavaScript LineTerminator code points; `.` (no `s` flag) matches any
character except these. -/
def isLT (c : Char) : Bool := decide (c.toNat ∈ [10, 13, 8232, 8233])

def isAlphaB (c : Char) : Bool :=
  decide (65 ≤ c.toNat ∧ c.toNat ≤ 90) || decide (97 ≤ c.toNat ∧ c.toNat ≤ 122)

def isDigitB (c : Char) : Bool := decide (48 ≤ c.toNat ∧ c.toNat ≤ 57)

/-- The class `\w`. -/
def isWordC (c : Char) : Bool := isAlphaB c || isDigitB c || c.toNat == 95

/-- Double or single quotation mark, the class `['"]`. -/
def isQuote (c : Char) : Bool := c.toNat == 34 || c.toNat == 39

def notQuote (c : Char) : Bool := !isQuote c

/-! ## Matcher primitives -/

/-- Consume a literal case-insensitively; `some rest` on success. -/
def eatCI : List Char → List Char → Option (List Char)
  | [], s => some s
  | _ :: _, [] => none
  | a :: as, b :: bs => if ciEq a b then eatCI as bs else none

/-- Consume one-or-more characters of a class (`C+` where `C` cannot occur
in what follows, so the greedy run is exact). -/
def eatSome (p : Char → Bool) : List Char → Option (List Char)
  | [] => none
  | c :: cs => if p c then some (List.dropWhile p cs) else none

/-- The lazy gap `.*?lit`: scan forward for the first case-insensitive
occurrence of `lit`, failing on a LineTerminator since `.` cannot cross
one; `some rest` leaves the suffix after the occurrence. -/
def lazyEat (lit : List Char) : List Char → Option (List Char)
  | [] => none
  | c :: cs =>
    match eatCI lit (c :: cs) with
    | some r => some r
    | none => if isLT c then none else lazyEat lit cs

/-! ## The individual source patterns, as match-at-position functions -/

/-- Matcher for `<open[^>]*>.*?close` (the shape of the script tag pattern
and each alternative of the dangerous-tag pattern). -/
def mBlock (openTag closeTag : List Char) (s : List Char) : Option (List Char) :=
  match eatCI openTag s with
  | none => none
  | some s1 =>
    match List.dropWhile (fun c => !(c == '>')) s1 with
    | d :: s2 => if d = '>' then lazyEat closeTag s2 else none
    | [] => none

/-- Pattern `/<script[^>]*>.*?<\/script>/gi`. -/
def mScript (s : List Char) : Option (List Char) :=
  mBlock "<script".data "</script>".data s

/-- Pattern `/on\w+\s*=\s*['"]*[^'"]*['"]/gi`.  After `on\w+\s*=\s*` the
greedy `['"]*[^'"]*['"]` either ends at the first quote following the
non-quote run, or — when no such quote exists but the leading quote run is
non-empty — backtracks one quote and ends at the last leading quote. -/
def mhTail (s4 : List Char) : Option (List Char) :=
  let s5 := List.dropWhile isQuote s4
  match List.dropWhile notQuote s5 with
  | _ :: rest => some rest
  | [] => if s5.length < s4.length then some s5 else none

def mHandler (s : List Char) : Option (List Char) :=
  match eatCI "on".data s with
  | none => none
  | some s1 =>
    match eatSome isWordC s1 with
    | none => none
    | some s2 =>
      match List.dropWhile isWS s2 with
      | d :: s3 => if d = '=' then mhTail (List.dropWhile isWS s3) else none
      | [] => none

/-- Pattern `/javascript:/gi`. -/
def mJs (s : List Char) : Option (List Char) := eatCI "javascript:".data s

/-- Pattern `/vbscript:/gi`. -/
def mVb (s : List Char) : Option (List Char) := eatCI "vbscript:".data s

/-- Pattern `/<(iframe|object|embed|form)[^>]*>.*?<\/\1>/gi`: the
back-reference forces the close tag to repeat the matched alternative, and
the alternatives are mutually exclusive at any position since their first
letters differ. -/
def mTags (s : List Char) : Option (List Char) :=
  mBlock "<iframe".data "</iframe>".data s <|>
  mBlock "<object".data "</object>".data s <|>
  mBlock "<embed".data "</embed>".data s <|>
  mBlock "<form".data "</form>".data s

/-- Matcher for `/onXX\s*=/gi` (the four event-name test patterns). -/
def mOn (lit : List Char) (s : List Char) : Option (List Char) :=
  match eatCI lit s with
  | none => none
  | some s1 =>
    match List.dropWhile isWS s1 with
    | d :: r => if d = '=' then some r else none
    | [] => none

/-! ## Global replacement and search -/

/-- Fuel-driven core of `scrub`.  Each embedded pattern consumes at least
one character of what it matches, so fuel equal to the length of the
string always suffices and the fuel never runs out on the modelled
patterns. -/
def scrubGo (m : List Char → Option (List Char)) : Nat → List Char → List Char
  | _, [] => []
  | 0, s => s
  | fuel + 1, c :: cs =>
    match m (c :: cs) with
    | some rest => scrubGo m fuel rest
    | none => c :: scrubGo m fuel cs

/-- `String.prototype.replace` with a `g`-flag pattern and empty
replacement: at each position delete the leftmost match and continue after
its end. -/
def scrub (m : List Char → Option (List Char)) (s : List Char) : List Char :=
  scrubGo m s.length s

/-- Existence of a match at any position (the fresh-state result of
`RegExp.prototype.test`). -/
def hasMatchB (m : List Char → Option (List Char)) : List Char → Bool
  | [] => (m []).isSome
  | c :: cs => (m (c :: cs)).isSome || hasMatchB m cs

/-! ## Trimming -/

def trimL (s : List Char) : List Char := s.dropWhile isWS

def trimR (s : List Char) : List Char := (s.reverse.dropWhile isWS).reverse

/-- `String.prototype.trim`. -/
def trimJS (s : List Char) : List Char := trimR (trimL s)

/-! ## The duck-typed input values -/

/-- Runtime values reaching the validators: the `string` case and the
non-string shapes distinguished by the `typeof`/falsiness guards. -/
inductive JSVal where
  | str (s : String)
  | num (n : Int)
  | boolean (b : Bool)
  | nullV
  | undef
deriving DecidableEq, Repr

/-- JavaScript truthiness of a `JSVal` (`!x` is its negation). -/
def jsTruthy : JSVal → Bool
  | .str s => !(s == "")
  | .num n => !(n == 0)
  | .boolean b => b
  | .nullV => false
  | .undef => false

def isStringV : JSVal → Bool
  | .str _ => true
  | _ => false

/-! ## sanitizeString -/

/-- The five replacement passes of `sanitizeString`, in source order, then
the final trim. -/
def sanitizeChars (l : List Char) : List Char :=
  trimJS (scrub mTags (scrub mVb (scrub mJs (scrub mHandler (scrub mScript l)))))

def sanitizeStr (s : String) : String := String.mk (sanitizeChars s.data)

/-- `InputValidator.sanitizeString`, including the non-string guard. -/
def sanitizeString (v : JSVal) : String :=
  match v with
  | .str s => sanitizeStr s
  | _ => ""

/-! ## Anchored whole-string tests -/

/-- Class `[a-zA-Z0-9._%+-]` (local part of the email pattern). -/
def localC (c : Char) : Bool :=
  isAlphaB c || isDigitB c || c == '.' || c == '_' || c == '%' || c == '+' || c == '-'

/-- Class `[a-zA-Z0-9.-]` (domain part of the email pattern). -/
def domC (c : Char) : Bool := isAlphaB c || isDigitB c || c == '.' || c == '-'

/-- Test of `/^[a-zA-Z0-9._%+-]+@[a-zA-Z0-9.-]+\.[a-zA-Z]{2,}$/`: success is
existence of a decomposition `local ++ "@" ++ domain ++ "." ++ tld` with the
stated classes and lengths, decided by enumerating the two split points. -/
def emailTest (l : List Char) : Bool :=
  (List.range (l.length + 1)).any fun i =>
    (l.get? i == some '@') &&
    (let lp := l.take i
     let m := l.drop (i + 1)
     !lp.isEmpty && lp.all localC &&
     ((List.range (m.length + 1)).any fun j =>
        (m.get? j == some '.') &&
        (let d := m.take j
         let t := m.drop (j + 1)
         !d.isEmpty && d.all domC && decide (2 ≤ t.length) && t.all isAlphaB)))

/-- Test of `/^[a-zA-Z0-9_]+$/`. -/
def usernameOK (l : List Char) : Bool := !l.isEmpty && l.all isWordC

/-- Single quotation mark. -/
def isSQ (c : Char) : Bool := c.toNat == 39

/-- Class `[a-zA-Z\s\-']`. -/
def nameCharOK (c : Char) : Bool := isAlphaB c || isWS c || c == '-' || isSQ c

/-- Test of `/^[a-zA-Z\s\-']+$/`. -/
def nameOK (l : List Char) : Bool := !l.isEmpty && l.all nameCharOK

/-! ## The SQL-injection pattern set

The four patterns are used only through `RegExp.prototype.test`, so each is
embedded as a scan for the existence of a match; the scans carry whether
the previous character was a word character, which decides the `\b`
assertions. -/

def sqlKws : List (List Char) :=
  ["union", "select", "insert", "delete", "update", "drop", "create",
   "alter", "exec", "execute"].map String.data

/-- One position of `/(\b(union|select|...|execute)\b)/gi`. -/
def kwAt (prevW : Bool) (s : List Char) : Bool :=
  !prevW && sqlKws.any fun k =>
    match eatCI k s with
    | some rest => match rest with | [] => true | c :: _ => !isWordC c
    | none => false

def s1Scan : Bool → List Char → Bool
  | _, [] => false
  | prevW, c :: cs => kwAt prevW (c :: cs) || s1Scan (isWordC c) cs

/-- One position of `/(--|#|\/\*|\*\/)/g`. -/
def s2At (s : List Char) : Bool :=
  (eatCI "--".data s).isSome || (eatCI "#".data s).isSome ||
  (eatCI "/*".data s).isSome || (eatCI "*/".data s).isSome

def s2Scan : List Char → Bool
  | [] => false
  | c :: cs => s2At (c :: cs) || s2Scan cs

/-- One position of `/(\b(or|and)\b\s+\d+\s*=\s*\d+)/gi`.  The `\b` after
the keyword is implied by `\s+`, whose characters are non-word. -/
def s3At (prevW : Bool) (s : List Char) : Bool :=
  !prevW && (["or", "and"].map String.data).any fun k =>
    match eatCI k s with
    | none => false
    | some r1 =>
      match eatSome isWS r1 with
      | none => false
      | some r2 =>
        match eatSome isDigitB r2 with
        | none => false
        | some r3 =>
          match List.dropWhile isWS r3 with
          | '=' :: r4 =>
            match eatSome isDigitB (List.dropWhile isWS r4) with
            | some _ => true
            | none => false
          | _ => false

def s3Scan : Bool → List Char → Bool
  | _, [] => false
  | prevW, c :: cs => s3At prevW (c :: cs) || s3Scan (isWordC c) cs

/-- One position of `/(\'\s*(or|and)\s*\'\w*\'\s*=\s*\'\w*)/gi`; the final
`\w*` always succeeds and is dropped. -/
def s4At (s : List Char) : Bool :=
  match s with
  | [] => false
  | c :: s1 =>
    isSQ c &&
    ((["or", "and"].map String.data).any fun k =>
      match eatCI k (List.dropWhile isWS s1) with
      | none => false
      | some r2 =>
        match List.dropWhile isWS r2 with
        | q1 :: r3 =>
          isSQ q1 &&
          (match List.dropWhile isWordC r3 with
           | q2 :: r4 =>
             isSQ q2 &&
             (match List.dropWhile isWS r4 with
              | '=' :: r5 =>
                (match List.dropWhile isWS r5 with
                 | q3 :: _ => isSQ q3
                 | [] => false)
              | _ => false)
           | [] => false)
        | [] => false)

def s4Scan : List Char → Bool
  | [] => false
  | c :: cs => s4At (c :: cs) || s4Scan cs

/-- Some SQL-injection pattern matches (fresh-state semantics of the
`for ... pattern.test(...)` loops). -/
def sqlAny (l : List Char) : Bool :=
  s1Scan false l || s2Scan l || s3Scan false l || s4Scan l

/-! ## The XSS pattern set -/

/-- The ten `XSS_PATTERNS`, in source order. -/
def xssMatchers : List (List Char → Option (List Char)) :=
  [mScript, mJs, mVb,
   mOn "onload".data, mOn "onerror".data, mOn "onclick".data,
   mOn "onmouseover".data,
   mBlock "<iframe".data "</iframe>".data,
   mBlock "<object".data "</object>".data,
   mBlock "<embed".data "</embed>".data]

/-- Some XSS pattern matches (fresh-state semantics). -/
def xssAny (l : List Char) : Bool := xssMatchers.any fun m => hasMatchB m l

/-! ## Validators -/

structure ValidationResult where
  isValid : Bool
  errors : List String
deriving DecidableEq, Repr

/-- `InputValidator.validateEmail`. -/
def validateEmail : JSVal → ValidationResult
  | .str email =>
    if email = "" then ⟨false, ["Email is required"]⟩
    else
      let sanitized := sanitizeStr email
      let e1 := if sanitized ≠ email then ["Email contains invalid characters"] else []
      let e2 := if !emailTest sanitized.data then ["Please enter a valid email address"] else []
      let e3 := if sanitized.length > 100 then ["Email is too long (max 100 characters)"] else []
      let es := e1 ++ e2 ++ e3
      ⟨es.isEmpty, es⟩
  | _ => ⟨false, ["Email is required"]⟩

/-- `InputValidator.validateUsername`. -/
def validateUsername : JSVal → ValidationResult
  | .str username =>
    if username = "" then ⟨false, ["Username is required"]⟩
    else
      let sanitized := sanitizeStr username
      let e1 := if sanitized ≠ username then ["Username contains invalid characters"] else []
      let e2 := if sanitized.length < 3 then ["Username must be at least 3 characters long"] else []
      let e3 := if sanitized.length > 50 then ["Username is too long (max 50 characters)"] else []
      let e4 := if !usernameOK sanitized.data then ["Username can only contain letters, numbers, and underscores"] else []
      let es := e1 ++ e2 ++ e3 ++ e4
      ⟨es.isEmpty, es⟩
  | _ => ⟨false, ["Username is required"]⟩

/-- `InputValidator.validateName`; the character-set check is guarded by
`sanitized` being truthy, exactly as in the source. -/
def validateName (v : JSVal) (fieldName : String) : ValidationResult :=
  match v with
  | .str name =>
    if name = "" then ⟨false, [fieldName ++ " is required"]⟩
    else
      let sanitized := sanitizeStr name
      let e1 := if sanitized ≠ name then [fieldName ++ " contains invalid characters"] else []
      let e2 := if sanitized.length < 1 then [fieldName ++ " is required"] else []
      let e3 := if sanitized.length > 50 then [fieldName ++ " is too long (max 50 characters)"] else []
      let e4 := if sanitized ≠ "" ∧ !nameOK sanitized.data then
          [fieldName ++ " can only contain letters, spaces, hyphens, and apostrophes"] else []
      let es := e1 ++ e2 ++ e3 ++ e4
      ⟨es.isEmpty, es⟩
  | _ => ⟨false, [fieldName ++ " is required"]⟩

/-- `InputValidator.validatePassword`; operates on the raw value, with no
sanitization check. -/
def validatePassword : JSVal → ValidationResult
  | .str password =>
    if password = "" then ⟨false, ["Password is required"]⟩
    else
      let e1 := if password.length < 8 then ["Password must be at least 8 characters long"] else []
      let e2 := if password.length > 128 then ["Password is too long (max 128 characters)"] else []
      let e3 := if !password.data.any isAlphaB then ["Password must contain at least one letter"] else []
      let e4 := if !password.data.any isDigitB then ["Password must contain at least one number"] else []
      let es := e1 ++ e2 ++ e3 ++ e4
      ⟨es.isEmpty, es⟩
  | _ => ⟨false, ["Password is required"]⟩

/-- `InputValidator.validatePostTitle`; the SQL-pattern loop pushes its
message once and breaks, hence the single guarded message. -/
def validatePostTitle : JSVal → ValidationResult
  | .str title =>
    if title = "" then ⟨false, ["Title is required"]⟩
    else
      let sanitized := sanitizeStr title
      let e1 := if sanitized ≠ title then ["Title contains invalid characters"] else []
      let e2 := if sanitized.length < 5 then ["Title must be at least 5 characters long"] else []
      let e3 := if sanitized.length > 200 then ["Title is too long (max 200 characters)"] else []
      let e4 := if sqlAny sanitized.data then ["Title contains invalid content"] else []
      let es := e1 ++ e2 ++ e3 ++ e4
      ⟨es.isEmpty, es⟩
  | _ => ⟨false, ["Title is required"]⟩

/-- `InputValidator.validatePostContent`. -/
def validatePostContent : JSVal → ValidationResult
  | .str content =>
    if content = "" then ⟨false, ["Content is required"]⟩
    else
      let sanitized := sanitizeStr content
      let e1 := if sanitized ≠ content then ["Content contains invalid characters"] else []
      let e2 := if sanitized.length < 10 then ["Content must be at least 10 characters long"] else []
      let e3 := if sanitized.length > 10000 then ["Content is too long (max 10,000 characters)"] else []
      let e4 := if sqlAny sanitized.data then ["Content contains invalid content"] else []
      let es := e1 ++ e2 ++ e3 ++ e4
      ⟨es.isEmpty, es⟩
  | _ => ⟨false, ["Content is required"]⟩

/-! ## Detection predicates -/

/-- `InputValidator.hasXSSContent`, fresh-state per-call semantics. -/
def hasXSSContent : JSVal → Bool
  | .str s => xssAny s.data
  | _ => false

/-- `InputValidator.hasSQLInjectionContent`, fresh-state semantics. -/
def hasSQLInjectionContent : JSVal → Bool
  | .str s => sqlAny s.data
  | _ => false

/-! ## Composite validators -/

/-- The `userData` argument of `validateUserRegistration`; a missing
`confirmPassword` is `JSVal.undef`. -/
structure RegistrationData where
  username : JSVal
  email : JSVal
  firstName : JSVal
  lastName : JSVal
  password : JSVal
  confirmPassword : JSVal
deriving DecidableEq, Repr

/-- `InputValidator.validateUserRegistration`. -/
def validateUserRegistration (u : RegistrationData) : ValidationResult :=
  let r1 := validateUsername u.username
  let r2 := validateEmail u.email
  let r3 := validateName u.firstName "First name"
  let r4 := validateName u.lastName "Last name"
  let r5 := validatePassword u.password
  let e1 := if r1.isValid then [] else r1.errors
  let e2 := if r2.isValid then [] else r2.errors
  let e3 := if r3.isValid then [] else r3.errors
  let e4 := if r4.isValid then [] else r4.errors
  let e5 := if r5.isValid then [] else r5.errors
  let e6 := if jsTruthy u.confirmPassword && !(u.password == u.confirmPassword) then
      ["Passwords do not match"] else []
  let es := e1 ++ e2 ++ e3 ++ e4 ++ e5 ++ e6
  ⟨es.isEmpty, es⟩

structure PostData where
  title : JSVal
  content : JSVal
deriving DecidableEq, Repr

/-- `InputValidator.validatePostCreation`. -/
def validatePostCreation (p : PostData) : ValidationResult :=
  let r1 := validatePostTitle p.title
  let r2 := validatePostContent p.content
  let e1 := if r1.isValid then [] else r1.errors
  let e2 := if r2.isValid then [] else r2.errors
  let es := e1 ++ e2
  ⟨es.isEmpty, es⟩

/-! ## useInputValidation -/

inductive FieldKind where
  | email
  | username
  | name
  | password
  | title
  | content
deriving DecidableEq, Repr

/-- The `validateField` closure of `useInputValidation`; a missing
`fieldName` lets `validateName`'s default label `"Name"` apply. -/
def validateField (value : JSVal) (kind : FieldKind) (fieldName : Option String) :
    ValidationResult :=
  match kind with
  | .email => validateEmail value
  | .username => validateUsername value
  | .name => validateName value (fieldName.getD "Name")
  | .password => validatePassword value
  | .title => validatePostTitle value
  | .content => validatePostContent value

/-! ## Stateful test semantics of the shared `g`-flag patterns

`XSS_PATTERNS` and `SQL_INJECTION_PATTERNS` are shared regex objects with
the `g` flag, so `test` starts searching at the object's `lastIndex`, sets
it to the match end on success and resets it to `0` on failure.  This is
the model of that behaviour, used to analyse the purity claim. -/

/-- First match at or after the current position; returns the end index. -/
def searchEnd (m : List Char → Option (List Char)) : List Char → Nat → Option Nat
  | [], pos => match m [] with | some _ => some pos | none => none
  | c :: cs, pos =>
    match m (c :: cs) with
    | some rest => some (pos + ((c :: cs).length - rest.length))
    | none => searchEnd m cs (pos + 1)

/-- `RegExp.prototype.test` on a `g`-flag regex with current `lastIndex`
`li`: result plus updated `lastIndex`. -/
def jsTestG (m : List Char → Option (List Char)) (s : List Char) (li : Nat) : Bool × Nat :=
  if li > s.length then (false, 0)
  else
    match searchEnd m (s.drop li) li with
    | some e => (true, e)
    | none => (false, 0)

/-- The `for ... of XSS_PATTERNS` loop of `hasXSSContent`: tests patterns
in order against their own `lastIndex` state, returning at the first hit;
patterns after the hit keep their stored `lastIndex`. -/
def runXSSTests : List ((List Char → Option (List Char)) × Nat) → List Char → Bool × List Nat
  | [], _ => (false, [])
  | (m, li) :: rest, s =>
    let t := jsTestG m s li
    if t.1 then (true, t.2 :: rest.map Prod.snd)
    else
      let r := runXSSTests rest s
      (r.1, t.2 :: r.2)

/-- `hasXSSContent` on a string, threading the per-pattern `lastIndex`
state of the ten shared `XSS_PATTERNS`. -/
def hasXSSContentStateful (st : List Nat) (s : String) : Bool × List Nat :=
  runXSSTests (xssMatchers.zip st) s.data

/-! ## Spec-side models (for refinement claims) -/

/-- Spec reading of the script pass (claim of §4.1): the lazy gap may span
lines, so the scan never fails on a LineTerminator. -/
def lazyEatAll (lit : List Char) : List Char → Option (List Char)
  | [] => none
  | c :: cs =>
    match eatCI lit (c :: cs) with
    | some r => some r
    | none =>
      match c with
      | _ => lazyEatAll lit cs

/-- Spec reading of `<open[^>]*>` blocks with multi-line content. -/
def mBlockAll (openTag closeTag : List Char) (s : List Char) : Option (List Char) :=
  match eatCI openTag s with
  | none => none
  | some s1 =>
    match List.dropWhile (fun c => !(c == '>')) s1 with
    | '>' :: s2 => lazyEatAll closeTag s2
    | _ => none

/-- Script-block removal as the specification words it: case-insensitive,
content spanning lines. -/
def mScriptSpec (s : List Char) : Option (List Char) :=
  mBlockAll "<script".data "</script>".data s

def isDQ (c : Char) : Bool := c.toNat == 34

/-- Event-handler removal as the specification words it: exactly the forms
`on<name>="..."` or `on<name>='...'`, with strictly paired quotes. -/
def mHandlerSpec (s : List Char) : Option (List Char) :=
  match eatCI "on".data s with
  | none => none
  | some s1 =>
    match eatSome isWordC s1 with
    | none => none
    | some s2 =>
      match List.dropWhile isWS s2 with
      | '=' :: s3 =>
        match List.dropWhile isWS s3 with
        | q :: s4 =>
          if isDQ q then
            match List.dropWhile (fun c => !isDQ c) s4 with
            | _ :: rest => some rest
            | [] => none
          else if isSQ q then
            match List.dropWhile (fun c => !isSQ c) s4 with
            | _ :: rest => some rest
            | [] => none
          else none
        | [] => none
      | _ => none

/-- The sanitizer exactly as claim C6 describes it, pass by pass. -/
def sanitizeSpecChars (l : List Char) : List Char :=
  trimJS (scrub mTags (scrub mVb (scrub mJs (scrub mHandlerSpec (scrub mScriptSpec l)))))

/-- The claimed sanitizer contract on runtime values. -/
def sanitizeSpec (v : JSVal) : String :=
  match v with
  | .str s => String.mk (sanitizeSpecChars s.data)
  | _ => ""

/-- No sanitizer pattern matches anywhere in the string: the input is free
of the specific tag/attribute forms targeted by the sanitizer. -/
def saniCleanB (l : List Char) : Bool :=
  !(hasMatchB mScript l || hasMatchB mHandler l || hasMatchB mJs l ||
    hasMatchB mVb l || hasMatchB mTags l)

/-- The error list `validateName` would produce if, as claim C5 states, all
checks after the required check ran unconditionally. -/
def nameChecksUnconditional (name : String) (fieldName : String) : List String :=
  let sanitized := sanitizeStr name
  (if sanitized ≠ name then [fieldName ++ " contains invalid characters"] else []) ++
  (if sanitized.length < 1 then [fieldName ++ " is required"] else []) ++
  (if sanitized.length > 50 then [fieldName ++ " is too long (max 50 characters)"] else []) ++
  (if !nameOK sanitized.data then
    [fieldName ++ " can only contain letters, spaces, hyphens, and apostrophes"] else [])

end InputVal

namespace InputVal

/-! ## Result-invariant helpers -/

theorem email_inv (v : JSVal) :
    (validateEmail v).isValid = (validateEmail v).errors.isEmpty := by
  cases v with
  | str s =>
    by_cases h : s = ""
    · simp [validateEmail, h]
    · simp only [validateEmail, if_neg h]
  | num n => rfl
  | boolean b => rfl
  | nullV => rfl
  | undef => rfl

theorem username_inv (v : JSVal) :
    (validateUsername v).isValid = (validateUsername v).errors.isEmpty := by
  cases v with
  | str s =>
    by_cases h : s = ""
    · simp [validateUsername, h]
    · simp only [validateUsername, if_neg h]
  | num n => rfl
  | boolean b => rfl
  | nullV => rfl
  | undef => rfl

theorem name_inv (v : JSVal) (fieldName : String) :
    (validateName v fieldName).isValid = (validateName v fieldName).errors.isEmpty := by
  cases v with
  | str s =>
    by_cases h : s = ""
    · simp [validateName, h]
    · simp only [validateName, if_neg h]
  | num n => rfl
  | boolean b => rfl
  | nullV => rfl
  | undef => rfl

theorem password_inv (v : JSVal) :
    (validatePassword v).isValid = (validatePassword v).errors.isEmpty := by
  cases v with
  | str s =>
    by_cases h : s = ""
    · simp [validatePassword, h]
    · simp only [validatePassword, if_neg h]
  | num n => rfl
  | boolean b => rfl
  | nullV => rfl
  | undef => rfl

theorem title_inv (v : JSVal) :
    (validatePostTitle v).isValid = (validatePostTitle v).errors.isEmpty := by
  cases v with
  | str s =>
    by_cases h : s = ""
    · simp [validatePostTitle, h]
    · simp only [validatePostTitle, if_neg h]
  | num n => rfl
  | boolean b => rfl
  | nullV => rfl
  | undef => rfl

theorem content_inv (v : JSVal) :
    (validatePostContent v).isValid = (validatePostContent v).errors.isEmpty := by
  cases v with
  | str s =>
    by_cases h : s = ""
    · simp [validatePostContent, h]
    · simp only [validatePostContent, if_neg h]
  | num n => rfl
  | boolean b => rfl
  | nullV => rfl
  | undef => rfl

theorem registration_inv (u : RegistrationData) :
    (validateUserRegistration u).isValid = (validateUserRegistration u).errors.isEmpty := rfl

theorem post_creation_inv (p : PostData) :
    (validatePostCreation p).isValid = (validatePostCreation p).errors.isEmpty := rfl

theorem field_inv (v : JSVal) (k : FieldKind) (fieldName : Option String) :
    (validateField v k fieldName).isValid = (validateField v k fieldName).errors.isEmpty := by
  cases k <;>
    simp only [validateField, email_inv, username_inv, name_inv, password_inv,
      title_inv, content_inv]

theorem res_iff (r : ValidationResult) (h : r.isValid = r.errors.isEmpty) :
    r.isValid = true ↔ r.errors = [] := by
  rw [h, List.isEmpty_iff]

/-- The conditional error propagation of the composite validators is plain
concatenation: a valid result contributes its (empty) error list anyway. -/
theorem condPush (r : ValidationResult) (h : r.isValid = r.errors.isEmpty) :
    (if r.isValid then ([] : List String) else r.errors) = r.errors := by
  cases hv : r.isValid
  · simp
  · have : r.errors = [] := by
      have := h; rw [hv] at this; exact (List.isEmpty_iff).mp this.symm
    simp [this]

end InputVal

namespace InputVal

/-! ## Error-list decompositions

Each validator's error list is the concatenation, in source order, of the
guarded messages of its checks (after the initial required/type check). -/

theorem email_errors (s : String) (h : ¬ s = "") :
    (validateEmail (.str s)).errors =
      (if sanitizeStr s ≠ s then ["Email contains invalid characters"] else []) ++
      (if !emailTest (sanitizeStr s).data then ["Please enter a valid email address"] else []) ++
      (if (sanitizeStr s).length > 100 then ["Email is too long (max 100 characters)"] else []) := by
  simp only [validateEmail, if_neg h]

theorem username_errors (s : String) (h : ¬ s = "") :
    (validateUsername (.str s)).errors =
      (if sanitizeStr s ≠ s then ["Username contains invalid characters"] else []) ++
      (if (sanitizeStr s).length < 3 then ["Username must be at least 3 characters long"] else []) ++
      (if (sanitizeStr s).length > 50 then ["Username is too long (max 50 characters)"] else []) ++
      (if !usernameOK (sanitizeStr s).data then
        ["Username can only contain letters, numbers, and underscores"] else []) := by
  simp only [validateUsername, if_neg h]

theorem name_errors (s : String) (fieldName : String) (h : ¬ s = "") :
    (validateName (.str s) fieldName).errors =
      (if sanitizeStr s ≠ s then [fieldName ++ " contains invalid characters"] else []) ++
      (if (sanitizeStr s).length < 1 then [fieldName ++ " is required"] else []) ++
      (if (sanitizeStr s).length > 50 then [fieldName ++ " is too long (max 50 characters)"] else []) ++
      (if sanitizeStr s ≠ "" ∧ !nameOK (sanitizeStr s).data then
        [fieldName ++ " can only contain letters, spaces, hyphens, and apostrophes"] else []) := by
  simp only [validateName, if_neg h]

theorem password_errors (s : String) (h : ¬ s = "") :
    (validatePassword (.str s)).errors =
      (if s.length < 8 then ["Password must be at least 8 characters long"] else []) ++
      (if s.length > 128 then ["Password is too long (max 128 characters)"] else []) ++
      (if !s.data.any isAlphaB then ["Password must contain at least one letter"] else []) ++
      (if !s.data.any isDigitB then ["Password must contain at least one number"] else []) := by
  simp only [validatePassword, if_neg h]

theorem title_errors (s : String) (h : ¬ s = "") :
    (validatePostTitle (.str s)).errors =
      (if sanitizeStr s ≠ s then ["Title contains invalid characters"] else []) ++
      (if (sanitizeStr s).length < 5 then ["Title must be at least 5 characters long"] else []) ++
      (if (sanitizeStr s).length > 200 then ["Title is too long (max 200 characters)"] else []) ++
      (if sqlAny (sanitizeStr s).data then ["Title contains invalid content"] else []) := by
  simp only [validatePostTitle, if_neg h]

theorem content_errors (s : String) (h : ¬ s = "") :
    (validatePostContent (.str s)).errors =
      (if sanitizeStr s ≠ s then ["Content contains invalid characters"] else []) ++
      (if (sanitizeStr s).length < 10 then ["Content must be at least 10 characters long"] else []) ++
      (if (sanitizeStr s).length > 10000 then ["Content is too long (max 10,000 characters)"] else []) ++
      (if sqlAny (sanitizeStr s).data then ["Content contains invalid content"] else []) := by
  simp only [validatePostContent, if_neg h]

/-- The raw shape of the composite registration result. -/
theorem reg_errors_raw (u : RegistrationData) :
    (validateUserRegistration u).errors =
      (if (validateUsername u.username).isValid then [] else (validateUsername u.username).errors) ++
      (if (validateEmail u.email).isValid then [] else (validateEmail u.email).errors) ++
      (if (validateName u.firstName "First name").isValid then []
        else (validateName u.firstName "First name").errors) ++
      (if (validateName u.lastName "Last name").isValid then []
        else (validateName u.lastName "Last name").errors) ++
      (if (validatePassword u.password).isValid then [] else (validatePassword u.password).errors) ++
      (if jsTruthy u.confirmPassword && !(u.password == u.confirmPassword) then
        ["Passwords do not match"] else []) := rfl

/-- The composite registration result concatenates the five field error
lists unconditionally, in field order. -/
theorem reg_errors (u : RegistrationData) :
    (validateUserRegistration u).errors =
      (validateUsername u.username).errors ++
      (validateEmail u.email).errors ++
      (validateName u.firstName "First name").errors ++
      (validateName u.lastName "Last name").errors ++
      (validatePassword u.password).errors ++
      (if jsTruthy u.confirmPassword && !(u.password == u.confirmPassword) then
        ["Passwords do not match"] else []) := by
  rw [reg_errors_raw, condPush _ (username_inv _), condPush _ (email_inv _),
    condPush _ (name_inv _ _), condPush _ (name_inv _ _), condPush _ (password_inv _)]

/-! ## Membership helpers -/

theorem mem_guard {c : Prop} [Decidable c] {m x : String}
    (h : x ∈ (if c then [m] else [])) : x = m := by
  split at h
  · simpa using h
  · simp at h

theorem pdnm_username (v : JSVal) :
    "Passwords do not match" ∉ (validateUsername v).errors := by
  cases v with
  | str s =>
    by_cases h : s = ""
    · intro hm; simp [validateUsername, h] at hm
    · rw [username_errors s h]
      intro hm
      rcases List.mem_append.mp hm with hm | hm
      rcases List.mem_append.mp hm with hm | hm
      rcases List.mem_append.mp hm with hm | hm
      all_goals exact absurd (mem_guard hm) (by decide)
  | num n => intro hm; simp [validateUsername] at hm
  | boolean b => intro hm; simp [validateUsername] at hm
  | nullV => intro hm; simp [validateUsername] at hm
  | undef => intro hm; simp [validateUsername] at hm

theorem pdnm_email (v : JSVal) :
    "Passwords do not match" ∉ (validateEmail v).errors := by
  cases v with
  | str s =>
    by_cases h : s = ""
    · intro hm; simp [validateEmail, h] at hm
    · rw [email_errors s h]
      intro hm
      rcases List.mem_append.mp hm with hm | hm
      rcases List.mem_append.mp hm with hm | hm
      all_goals exact absurd (mem_guard hm) (by decide)
  | num n => intro hm; simp [validateEmail] at hm
  | boolean b => intro hm; simp [validateEmail] at hm
  | nullV => intro hm; simp [validateEmail] at hm
  | undef => intro hm; simp [validateEmail] at hm

theorem pdnm_name (v : JSVal) (fieldName : String)
    (hf : fieldName = "First name" ∨ fieldName = "Last name") :
    "Passwords do not match" ∉ (validateName v fieldName).errors := by
  have hreq : "Passwords do not match" ≠ fieldName ++ " is required" := by
    rcases hf with rfl | rfl <;> decide
  cases v with
  | str s =>
    by_cases h : s = ""
    · intro hm
      simp only [validateName, if_pos h] at hm
      exact hreq (by simpa using hm)
    · rw [name_errors s fieldName h]
      intro hm
      rcases List.mem_append.mp hm with hm | hm
      rcases List.mem_append.mp hm with hm | hm
      rcases List.mem_append.mp hm with hm | hm
      all_goals
        rcases hf with rfl | rfl <;> exact absurd (mem_guard hm) (by decide)
  | num n => intro hm; exact hreq (by simpa [validateName] using hm)
  | boolean b => intro hm; exact hreq (by simpa [validateName] using hm)
  | nullV => intro hm; exact hreq (by simpa [validateName] using hm)
  | undef => intro hm; exact hreq (by simpa [validateName] using hm)

theorem pdnm_password (v : JSVal) :
    "Passwords do not match" ∉ (validatePassword v).errors := by
  cases v with
  | str s =>
    by_cases h : s = ""
    · intro hm; simp [validatePassword, h] at hm
    · rw [password_errors s h]
      intro hm
      rcases List.mem_append.mp hm with hm | hm
      rcases List.mem_append.mp hm with hm | hm
      rcases List.mem_append.mp hm with hm | hm
      all_goals exact absurd (mem_guard hm) (by decide)
  | num n => intro hm; simp [validatePassword] at hm
  | boolean b => intro hm; simp [validatePassword] at hm
  | nullV => intro hm; simp [validatePassword] at hm
  | undef => intro hm; simp [validatePassword] at hm

end InputVal

namespace InputVal

/-! ## Whitespace facts for the idempotence analysis -/

/-- Every character of the list is JavaScript whitespace. -/
def wsOnly (l : List Char) : Prop := ∀ c ∈ l, isWS c = true

theorem lcN_mem_ws {n : Nat} (h : n ∈ wsNats) : lcN n = n := by
  fin_cases h <;> rfl

theorem toNat_mem_of_isWS {w : Char} (hw : isWS w = true) : w.toNat ∈ wsNats :=
  of_decide_eq_true hw

theorem ws_not_word {w : Char} (hw : isWS w = true) : isWordC w = false := by
  have h := toNat_mem_of_isWS hw
  simp only [isWordC, isAlphaB, isDigitB]
  generalize w.toNat = n at h ⊢
  fin_cases h <;> rfl

theorem ws_not_quote {w : Char} (hw : isWS w = true) : isQuote w = false := by
  have h := toNat_mem_of_isWS hw
  simp only [isQuote]
  generalize w.toNat = n at h ⊢
  fin_cases h <;> rfl

theorem ws_notQuote {w : Char} (hw : isWS w = true) : notQuote w = true := by
  simp [notQuote, ws_not_quote hw]

theorem ws_ne_gt {w : Char} (hw : isWS w = true) : (!(w == '>')) = true := by
  have hne : w ≠ '>' := by
    intro h
    rw [h] at hw
    exact absurd hw (by decide)
  simp [hne]

/-- Literals whose characters cannot case-fold onto any whitespace
character; every literal of the sanitizer patterns qualifies. -/
def LitSafe (lit : List Char) : Prop :=
  ∀ c ∈ lit, ∀ w, isWS w = true → ciEq c w = false

theorem litSafe_of_all {lit : List Char}
    (h : lit.all (fun c => decide (lcN c.toNat ∉ wsNats)) = true) : LitSafe lit := by
  intro c hc w hw
  have hcn : lcN c.toNat ∉ wsNats := of_decide_eq_true (List.all_eq_true.mp h c hc)
  have hwn := toNat_mem_of_isWS hw
  have : lcN c.toNat ≠ lcN w.toNat := by
    rw [lcN_mem_ws hwn]
    intro he
    exact hcn (he ▸ hwn)
  simpa [ciEq] using this

/-! ## Extension lemmas for the primitives -/

theorem eatCI_append_ws {lit : List Char} (hs : LitSafe lit) {r : List Char}
    (hr : wsOnly r) : ∀ u, eatCI lit (u ++ r) = (eatCI lit u).map (· ++ r) := by
  induction lit with
  | nil => intro u; simp [eatCI]
  | cons a as ih =>
    intro u
    cases u with
    | nil =>
      simp only [List.nil_append, eatCI, Option.map_none']
      cases r with
      | nil => rfl
      | cons w rs =>
        simp only [eatCI]
        rw [if_neg]
        simp [hs a (by simp) w (hr w (by simp))]
    | cons b bs =>
      simp only [List.cons_append, eatCI]
      by_cases hab : ciEq a b = true
      · rw [if_pos hab, if_pos hab]
        exact ih (fun c hc => hs c (by simp [hc])) bs
      · rw [if_neg hab, if_neg hab]
        rfl

theorem dw_stop {p : Char → Bool} {u : List Char} {c : Char} {rest : List Char}
    (h : List.dropWhile p u = c :: rest) (r : List Char) :
    List.dropWhile p (u ++ r) = c :: (rest ++ r) := by
  induction u with
  | nil => simp at h
  | cons a as ih =>
    by_cases hp : p a = true
    · rw [List.dropWhile_cons, if_pos hp] at h
      rw [List.cons_append, List.dropWhile_cons, if_pos hp]
      exact ih h
    · rw [List.dropWhile_cons, if_neg hp] at h
      rw [List.cons_append, List.dropWhile_cons, if_neg hp]
      injection h with h1 h2
      rw [h1, h2]

theorem dw_nil {p : Char → Bool} {u : List Char} (h : List.dropWhile p u = [])
    (r : List Char) : List.dropWhile p (u ++ r) = List.dropWhile p r := by
  induction u with
  | nil => rfl
  | cons a as ih =>
    by_cases hp : p a = true
    · rw [List.dropWhile_cons, if_pos hp] at h
      rw [List.cons_append, List.dropWhile_cons, if_pos hp]
      exact ih h
    · rw [List.dropWhile_cons, if_neg hp] at h
      exact absurd h (by simp)

theorem dw_all_of {p : Char → Bool} {r : List Char} (h : ∀ c ∈ r, p c = true) :
    List.dropWhile p r = [] := by
  induction r with
  | nil => rfl
  | cons a as ih =>
    rw [List.dropWhile_cons, if_pos (h a (by simp))]
    exact ih (fun c hc => h c (by simp [hc]))

theorem dw_none_of {p : Char → Bool} {r : List Char} (h : ∀ c ∈ r, p c = false) :
    List.dropWhile p r = r := by
  cases r with
  | nil => rfl
  | cons a as => rw [List.dropWhile_cons, if_neg (by simp [h a (by simp)])]

theorem dw_append_pfalse {p : Char → Bool} {r : List Char}
    (hrp : ∀ c ∈ r, p c = false) (u : List Char) :
    List.dropWhile p (u ++ r) = List.dropWhile p u ++ r := by
  cases hc : List.dropWhile p u with
  | nil => rw [dw_nil hc, dw_none_of hrp]; rfl
  | cons c rest => rw [dw_stop hc]; simp

theorem dw_idem (p : Char → Bool) (l : List Char) :
    List.dropWhile p (List.dropWhile p l) = List.dropWhile p l := by
  induction l with
  | nil => rfl
  | cons a as ih =>
    by_cases hp : p a = true
    · rw [List.dropWhile_cons, if_pos hp]
      exact ih
    · rw [List.dropWhile_cons, if_neg hp, List.dropWhile_cons, if_neg hp]

/-! ## Generic match-existence lemmas -/

theorem hasMatchB_append_left {m : List Char → Option (List Char)} {t : List Char}
    (x : List Char) (h : hasMatchB m t = true) : hasMatchB m (x ++ t) = true := by
  induction x with
  | nil => simpa using h
  | cons a as ih =>
    rw [List.cons_append]
    simp only [hasMatchB, Bool.or_eq_true]
    exact Or.inr ih

theorem hasMatchB_nil_of_wsOnly {m : List Char → Option (List Char)}
    (hnil : ∀ u, wsOnly u → m u = none) {l : List Char} (hl : wsOnly l) :
    hasMatchB m l = false := by
  induction l with
  | nil => simp [hasMatchB, hnil [] (by intro c hc; cases hc)]
  | cons c cs ih =>
    simp only [hasMatchB, Bool.or_eq_false_iff]
    refine ⟨?_, ih (fun d hd => hl d (by simp [hd]))⟩
    rw [hnil (c :: cs) hl]
    rfl

theorem hasMatchB_append_ws {m : List Char → Option (List Char)} {r : List Char}
    (hr : wsOnly r) (hsome : ∀ u, (m (u ++ r)).isSome = (m u).isSome)
    (hnil : ∀ u, wsOnly u → m u = none) (t : List Char) :
    hasMatchB m (t ++ r) = hasMatchB m t := by
  induction t with
  | nil =>
    rw [List.nil_append, hasMatchB_nil_of_wsOnly hnil hr]
    simp [hasMatchB, hnil [] (by intro c hc; cases hc)]
  | cons c cs ih =>
    rw [List.cons_append]
    simp only [hasMatchB]
    rw [ih]
    have := hsome (c :: cs)
    rw [List.cons_append] at this
    rw [this]

/-! ## Scrubbing is the identity on match-free strings -/

theorem scrubGo_id {m : List Char → Option (List Char)} :
    ∀ (f : Nat) (l : List Char), hasMatchB m l = false → scrubGo m f l = l := by
  intro f
  induction f with
  | zero => intro l h; cases l <;> rfl
  | succ f ih =>
    intro l h
    cases l with
    | nil => rfl
    | cons c cs =>
      simp only [hasMatchB, Bool.or_eq_false_iff] at h
      have hm : m (c :: cs) = none := by
        cases hx : m (c :: cs)
        · rfl
        · rw [hx] at h; exact absurd h.1 (by simp)
      simp only [scrubGo, hm]
      rw [ih cs h.2]

theorem scrub_id {m : List Char → Option (List Char)} {l : List Char}
    (h : hasMatchB m l = false) : scrub m l = l :=
  scrubGo_id _ _ h

end InputVal

namespace InputVal

/-! ## Per-matcher whitespace-extension lemmas

For each sanitizer pattern `m` and all-whitespace `r`: appending `r` does
not change whether `m` matches at a position, and `m` cannot match inside
all-whitespace text.  Both facts feed `hasMatchB_append_ws`. -/

theorem eatCI_cons_none {a : Char} {as : List Char} {w : Char} {ws : List Char}
    (h : ciEq a w = false) : eatCI (a :: as) (w :: ws) = none := by
  simp [eatCI, h]

theorem eatCI_none_ws {lit : List Char} (hs : LitSafe lit) (h0 : lit ≠ [])
    {u : List Char} (hu : wsOnly u) : eatCI lit u = none := by
  cases lit with
  | nil => exact absurd rfl h0
  | cons a as =>
    cases u with
    | nil => rfl
    | cons w ws => exact eatCI_cons_none (hs a (by simp) w (hu w (by simp)))

theorem lazyEat_wsOnly {lit : List Char} (hs : LitSafe lit) (h0 : lit ≠ [])
    {l : List Char} (hl : wsOnly l) : lazyEat lit l = none := by
  induction l with
  | nil => rfl
  | cons w ws ih =>
    have he : eatCI lit (w :: ws) = none := eatCI_none_ws hs h0 hl
    simp only [lazyEat, he]
    split
    · rfl
    · exact ih (fun c hc => hl c (by simp [hc]))

theorem lazyEat_append_ws {lit : List Char} (hs : LitSafe lit) (h0 : lit ≠ [])
    {r : List Char} (hr : wsOnly r) :
    ∀ u, lazyEat lit (u ++ r) = (lazyEat lit u).map (· ++ r) := by
  intro u
  induction u with
  | nil =>
    rw [List.nil_append, lazyEat_wsOnly hs h0 hr]
    rfl
  | cons a as ih =>
    rw [List.cons_append]
    have he := eatCI_append_ws hs hr (a :: as)
    rw [List.cons_append] at he
    simp only [lazyEat, he]
    cases hx : eatCI lit (a :: as) with
    | some rest => simp
    | none =>
      simp only [Option.map_none']
      by_cases hlt : isLT a = true
      · simp [hlt]
      · simp [hlt, ih]

theorem mBlock_append_ws {o c : List Char} (ho : LitSafe o) (hc : LitSafe c)
    (hc0 : c ≠ []) {r : List Char} (hr : wsOnly r) (u : List Char) :
    (mBlock o c (u ++ r)).isSome = (mBlock o c u).isSome := by
  have he := eatCI_append_ws ho hr u
  simp only [mBlock, he]
  cases hx : eatCI o u with
  | none => rfl
  | some s1 =>
    simp only [Option.map_some']
    cases hdw : List.dropWhile (fun ch => !(ch == '>')) s1 with
    | nil =>
      rw [dw_nil hdw, dw_all_of (fun w hw => ws_ne_gt (hr w hw))]
    | cons d s2 =>
      rw [dw_stop hdw]
      dsimp only
      by_cases hd : d = '>'
      · rw [if_pos hd, if_pos hd, lazyEat_append_ws hc hc0 hr s2]
        simp
      · rw [if_neg hd, if_neg hd]

theorem mBlock_none_ws {o c : List Char} (ho : LitSafe o) (ho0 : o ≠ [])
    {u : List Char} (hu : wsOnly u) : mBlock o c u = none := by
  have he : eatCI o u = none := eatCI_none_ws ho ho0 hu
  simp [mBlock, he]

theorem mhTail_append_ws {r : List Char} (hr : wsOnly r) (s4 : List Char) :
    (mhTail (s4 ++ r)).isSome = (mhTail s4).isSome := by
  have h5 : List.dropWhile isQuote (s4 ++ r) = List.dropWhile isQuote s4 ++ r :=
    dw_append_pfalse (fun w hw => ws_not_quote (hr w hw)) s4
  simp only [mhTail, h5]
  cases h6 : List.dropWhile notQuote (List.dropWhile isQuote s4) with
  | cons x rest =>
    rw [dw_stop h6]
    dsimp only
    rfl
  | nil =>
    rw [dw_nil h6, dw_all_of (fun w hw => ws_notQuote (hr w hw))]
    dsimp only
    simp only [List.length_append]
    by_cases hlen : (List.dropWhile isQuote s4).length < s4.length
    · rw [if_pos (by omega), if_pos hlen]
      simp
    · rw [if_neg (by omega), if_neg hlen]

theorem mHandler_append_ws {r : List Char} (hr : wsOnly r) (u : List Char) :
    (mHandler (u ++ r)).isSome = (mHandler u).isSome := by
  have hon : LitSafe "on".data := litSafe_of_all (by decide)
  have he := eatCI_append_ws hon hr u
  simp only [mHandler, he]
  cases hx : eatCI "on".data u with
  | none => rfl
  | some s1 =>
    simp only [Option.map_some']
    cases s1 with
    | nil =>
      rw [List.nil_append]
      cases r with
      | nil => rfl
      | cons w rs =>
        simp only [eatSome]
        rw [if_neg (by simp [ws_not_word (hr w (by simp))])]
    | cons a as =>
      simp only [List.cons_append, eatSome]
      by_cases ha : isWordC a = true
      · rw [if_pos ha, if_pos ha]
        have h2 : List.dropWhile isWordC (as ++ r) = List.dropWhile isWordC as ++ r :=
          dw_append_pfalse (fun w hw => ws_not_word (hr w hw)) as
        rw [h2]
        dsimp only
        cases h3 : List.dropWhile isWS (List.dropWhile isWordC as) with
        | nil =>
          rw [dw_nil h3, dw_all_of (fun w hw => hr w hw)]
        | cons d s3 =>
          rw [dw_stop h3]
          dsimp only
          by_cases hd : d = '='
          · rw [if_pos hd, if_pos hd]
            cases h4 : List.dropWhile isWS s3 with
            | nil =>
              rw [dw_nil h4, dw_all_of (fun w hw => hr w hw)]
            | cons e s4t =>
              rw [dw_stop h4]
              have := mhTail_append_ws hr (e :: s4t)
              rw [List.cons_append] at this
              exact this
          · rw [if_neg hd, if_neg hd]
      · rw [if_neg ha, if_neg ha]

theorem mHandler_none_ws {u : List Char} (hu : wsOnly u) : mHandler u = none := by
  have he : eatCI "on".data u = none :=
    eatCI_none_ws (litSafe_of_all (by decide)) (by decide) hu
  simp [mHandler, he]

theorem mJs_append_ws {r : List Char} (hr : wsOnly r) (u : List Char) :
    (mJs (u ++ r)).isSome = (mJs u).isSome := by
  have h := eatCI_append_ws (litSafe_of_all (by decide) : LitSafe "javascript:".data) hr u
  simp [mJs, h]

theorem mJs_none_ws {u : List Char} (hu : wsOnly u) : mJs u = none :=
  eatCI_none_ws (litSafe_of_all (by decide)) (by decide) hu

theorem mVb_append_ws {r : List Char} (hr : wsOnly r) (u : List Char) :
    (mVb (u ++ r)).isSome = (mVb u).isSome := by
  have h := eatCI_append_ws (litSafe_of_all (by decide) : LitSafe "vbscript:".data) hr u
  simp [mVb, h]

theorem mVb_none_ws {u : List Char} (hu : wsOnly u) : mVb u = none :=
  eatCI_none_ws (litSafe_of_all (by decide)) (by decide) hu

theorem mScript_append_ws {r : List Char} (hr : wsOnly r) (u : List Char) :
    (mScript (u ++ r)).isSome = (mScript u).isSome :=
  mBlock_append_ws (litSafe_of_all (by decide)) (litSafe_of_all (by decide))
    (by decide) hr u

theorem mScript_none_ws {u : List Char} (hu : wsOnly u) : mScript u = none :=
  mBlock_none_ws (litSafe_of_all (by decide)) (by decide) hu

theorem opt_orElse_isSome (x y : Option (List Char)) :
    (x <|> y).isSome = (x.isSome || y.isSome) := by
  cases x <;> simp [Option.orElse]

theorem mTags_append_ws {r : List Char} (hr : wsOnly r) (u : List Char) :
    (mTags (u ++ r)).isSome = (mTags u).isSome := by
  simp only [mTags, opt_orElse_isSome]
  rw [mBlock_append_ws (litSafe_of_all (by decide)) (litSafe_of_all (by decide)) (by decide) hr u,
    mBlock_append_ws (litSafe_of_all (by decide)) (litSafe_of_all (by decide)) (by decide) hr u,
    mBlock_append_ws (litSafe_of_all (by decide)) (litSafe_of_all (by decide)) (by decide) hr u,
    mBlock_append_ws (litSafe_of_all (by decide)) (litSafe_of_all (by decide)) (by decide) hr u]

theorem mTags_none_ws {u : List Char} (hu : wsOnly u) : mTags u = none := by
  simp only [mTags]
  rw [mBlock_none_ws (litSafe_of_all (by decide)) (by decide) hu,
    mBlock_none_ws (litSafe_of_all (by decide)) (by decide) hu,
    mBlock_none_ws (litSafe_of_all (by decide)) (by decide) hu,
    mBlock_none_ws (litSafe_of_all (by decide)) (by decide) hu]
  rfl

end InputVal

namespace InputVal

/-! ## Trim structure -/

theorem dw_length_le (p : Char → Bool) (l : List Char) :
    (List.dropWhile p l).length ≤ l.length := by
  induction l with
  | nil => simp
  | cons a as ih =>
    by_cases hp : p a = true
    · rw [List.dropWhile_cons, if_pos hp]
      exact Nat.le_succ_of_le ih
    · rw [List.dropWhile_cons, if_neg hp]

theorem trimR_decomp (u : List Char) :
    u = trimR u ++ (u.reverse.takeWhile isWS).reverse := by
  conv_lhs => rw [← List.reverse_reverse u]
  conv_lhs => rw [← List.takeWhile_append_dropWhile isWS u.reverse]
  rw [List.reverse_append]
  rfl

theorem wsOnly_takeWhile_reverse (l : List Char) :
    wsOnly (l.reverse.takeWhile isWS).reverse := by
  intro c hc
  exact List.mem_takeWhile_imp (List.mem_reverse.mp hc)

theorem trimL_idem (l : List Char) : trimL (trimL l) = trimL l :=
  dw_idem isWS l

theorem trimR_idem (l : List Char) : trimR (trimR l) = trimR l := by
  unfold trimR
  rw [List.reverse_reverse, dw_idem]

theorem trimL_trimR {u : List Char} (hu : trimL u = u) :
    trimL (trimR u) = trimR u := by
  cases hc : trimR u with
  | nil => rfl
  | cons c t =>
    have hdec := trimR_decomp u
    rw [hc] at hdec
    have hws : isWS c = false := by
      by_contra hcc
      rw [Bool.not_eq_false] at hcc
      have h1 : trimL u = List.dropWhile isWS (t ++ (u.reverse.takeWhile isWS).reverse) := by
        conv_lhs => rw [trimL, hdec]
        rw [List.cons_append, List.dropWhile_cons, if_pos hcc]
      have h2 := congrArg List.length (hu.symm.trans h1)
      have h3 := dw_length_le isWS (t ++ (u.reverse.takeWhile isWS).reverse)
      have h4 := congrArg List.length hdec
      simp only [List.length_append, List.length_cons] at h2 h3 h4
      omega
    rw [trimL, List.dropWhile_cons, if_neg (by simp [hws])]

theorem trimJS_idem (l : List Char) : trimJS (trimJS l) = trimJS l := by
  unfold trimJS
  rw [trimL_trimR (trimL_idem l), trimR_idem]

/-! ## No sanitizer pattern survives trimming a clean string -/

theorem hasMatch_trimJS_false {m : List Char → Option (List Char)} {l : List Char}
    (hws : ∀ (r : List Char), wsOnly r → ∀ u, (m (u ++ r)).isSome = (m u).isSome)
    (hnil : ∀ u, wsOnly u → m u = none)
    (h : hasMatchB m l = false) : hasMatchB m (trimJS l) = false := by
  have hu : hasMatchB m (trimL l) = false := by
    cases hcl : hasMatchB m (trimL l) with
    | false => rfl
    | true =>
      have hx := hasMatchB_append_left (l.takeWhile isWS) hcl
      rw [trimL] at hx
      rw [List.takeWhile_append_dropWhile] at hx
      rw [hx] at h
      exact absurd h (by simp)
  have hd := trimR_decomp (trimL l)
  have hwsw := wsOnly_takeWhile_reverse (trimL l)
  have heq := hasMatchB_append_ws hwsw (hws _ hwsw) hnil (trimR (trimL l))
  rw [← hd] at heq
  show hasMatchB m (trimR (trimL l)) = false
  rw [← heq, hu]

theorem saniClean_parts {l : List Char} (h : saniCleanB l = true) :
    hasMatchB mScript l = false ∧ hasMatchB mHandler l = false ∧
    hasMatchB mJs l = false ∧ hasMatchB mVb l = false ∧ hasMatchB mTags l = false := by
  simp only [saniCleanB, Bool.not_eq_true', Bool.or_eq_false_iff] at h
  exact ⟨h.1.1.1.1, h.1.1.1.2, h.1.1.2, h.1.2, h.2⟩

theorem sanitizeChars_of_clean {l : List Char} (h : saniCleanB l = true) :
    sanitizeChars l = trimJS l := by
  obtain ⟨h1, h2, h3, h4, h5⟩ := saniClean_parts h
  unfold sanitizeChars
  rw [scrub_id h1, scrub_id h2, scrub_id h3, scrub_id h4, scrub_id h5]

theorem saniClean_trimJS {l : List Char} (h : saniCleanB l = true) :
    saniCleanB (trimJS l) = true := by
  obtain ⟨h1, h2, h3, h4, h5⟩ := saniClean_parts h
  simp only [saniCleanB, Bool.not_eq_true', Bool.or_eq_false_iff]
  refine ⟨⟨⟨⟨?_, ?_⟩, ?_⟩, ?_⟩, ?_⟩
  · exact hasMatch_trimJS_false (fun r hr u => mScript_append_ws hr u)
      (fun u hu => mScript_none_ws hu) h1
  · exact hasMatch_trimJS_false (fun r hr u => mHandler_append_ws hr u)
      (fun u hu => mHandler_none_ws hu) h2
  · exact hasMatch_trimJS_false (fun r hr u => mJs_append_ws hr u)
      (fun u hu => mJs_none_ws hu) h3
  · exact hasMatch_trimJS_false (fun r hr u => mVb_append_ws hr u)
      (fun u hu => mVb_none_ws hu) h4
  · exact hasMatch_trimJS_false (fun r hr u => mTags_append_ws hr u)
      (fun u hu => mTags_none_ws hu) h5

end InputVal

/-! ## Claims -/

/-- C2: every operation returning a `ValidationResult` — the six field
validators, the two composite validators and `validateField` — satisfies
the invariant `isValid == (errors is empty)`. -/
theorem C2_isValid_iff_no_errors :
    (∀ v, (InputVal.validateEmail v).isValid = true ↔ (InputVal.validateEmail v).errors = []) ∧
    (∀ v, (InputVal.validateUsername v).isValid = true ↔ (InputVal.validateUsername v).errors = []) ∧
    (∀ v fieldName, (InputVal.validateName v fieldName).isValid = true ↔
      (InputVal.validateName v fieldName).errors = []) ∧
    (∀ v, (InputVal.validatePassword v).isValid = true ↔ (InputVal.validatePassword v).errors = []) ∧
    (∀ v, (InputVal.validatePostTitle v).isValid = true ↔ (InputVal.validatePostTitle v).errors = []) ∧
    (∀ v, (InputVal.validatePostContent v).isValid = true ↔ (InputVal.validatePostContent v).errors = []) ∧
    (∀ u, (InputVal.validateUserRegistration u).isValid = true ↔
      (InputVal.validateUserRegistration u).errors = []) ∧
    (∀ p, (InputVal.validatePostCreation p).isValid = true ↔
      (InputVal.validatePostCreation p).errors = []) ∧
    (∀ v k fieldName, (InputVal.validateField v k fieldName).isValid = true ↔
      (InputVal.validateField v k fieldName).errors = []) :=
  ⟨fun v => InputVal.res_iff _ (InputVal.email_inv v),
   fun v => InputVal.res_iff _ (InputVal.username_inv v),
   fun v f => InputVal.res_iff _ (InputVal.name_inv v f),
   fun v => InputVal.res_iff _ (InputVal.password_inv v),
   fun v => InputVal.res_iff _ (InputVal.title_inv v),
   fun v => InputVal.res_iff _ (InputVal.content_inv v),
   fun u => InputVal.res_iff _ (InputVal.registration_inv u),
   fun p => InputVal.res_iff _ (InputVal.post_creation_inv p),
   fun v k f => InputVal.res_iff _ (InputVal.field_inv v k f)⟩

/-- C3: every non-string input makes each field validator return
`{isValid: false, errors: [required-message]}` and makes both detection
predicates return `false`; all operations are total Lean functions, so no
input can raise an exception in the model. -/
theorem C3_non_string_inputs (v : InputVal.JSVal) (h : InputVal.isStringV v = false) :
    InputVal.validateEmail v = ⟨false, ["Email is required"]⟩ ∧
    InputVal.validateUsername v = ⟨false, ["Username is required"]⟩ ∧
    (∀ fieldName, InputVal.validateName v fieldName = ⟨false, [fieldName ++ " is required"]⟩) ∧
    InputVal.validatePassword v = ⟨false, ["Password is required"]⟩ ∧
    InputVal.validatePostTitle v = ⟨false, ["Title is required"]⟩ ∧
    InputVal.validatePostContent v = ⟨false, ["Content is required"]⟩ ∧
    InputVal.hasXSSContent v = false ∧
    InputVal.hasSQLInjectionContent v = false := by
  cases v with
  | str s => simp [InputVal.isStringV] at h
  | num n => exact ⟨rfl, rfl, fun _ => rfl, rfl, rfl, rfl, rfl, rfl⟩
  | boolean b => exact ⟨rfl, rfl, fun _ => rfl, rfl, rfl, rfl, rfl, rfl⟩
  | nullV => exact ⟨rfl, rfl, fun _ => rfl, rfl, rfl, rfl, rfl, rfl⟩
  | undef => exact ⟨rfl, rfl, fun _ => rfl, rfl, rfl, rfl, rfl, rfl⟩

/-- Witness for C3 at the non-string input `3`. -/
theorem C3_non_string_inputs_witness :
    InputVal.validateEmail (.num 3) = ⟨false, ["Email is required"]⟩ ∧
    InputVal.validateName (.num 3) "Name" = ⟨false, ["Name is required"]⟩ ∧
    InputVal.hasXSSContent (.num 3) = false :=
  have h := C3_non_string_inputs (.num 3) rfl
  ⟨h.1, h.2.2.1 "Name", h.2.2.2.2.2.2.1⟩

namespace InputVal

theorem count_guard_zero {c : Prop} [Decidable c] {m x : String} (hne : x ≠ m) :
    (if c then [x] else []).count m = 0 := by
  rw [List.count_eq_zero]
  intro hmem
  exact hne (mem_guard hmem).symm

theorem guard_nil_iff {c : Prop} [Decidable c] {x : String} :
    ((if c then [x] else []) = []) ↔ ¬c := by
  split <;> simp_all

end InputVal

/-- C4: `validateUserRegistration` runs all five field validators
unconditionally and returns their error lists concatenated in the order
username, email, firstName, lastName, password, followed by the
"Passwords do not match" error exactly when a confirmation value is
supplied (truthy) and differs from the password; `isValid` holds exactly
when the concatenated list is empty; and on valid field values with a
matching-length alphanumeric password and a differing confirmation the
result is exactly `{isValid: false, errors: ["Passwords do not match"]}`. -/
theorem C4_registration_aggregation :
    (∀ u : InputVal.RegistrationData,
      (InputVal.validateUserRegistration u).errors =
        (InputVal.validateUsername u.username).errors ++
        (InputVal.validateEmail u.email).errors ++
        (InputVal.validateName u.firstName "First name").errors ++
        (InputVal.validateName u.lastName "Last name").errors ++
        (InputVal.validatePassword u.password).errors ++
        (if InputVal.jsTruthy u.confirmPassword && !(u.password == u.confirmPassword) then
          ["Passwords do not match"] else []) ∧
      ((InputVal.validateUserRegistration u).isValid = true ↔
        (InputVal.validateUserRegistration u).errors = [])) ∧
    InputVal.validateUserRegistration
      ⟨.str "validuser", .str "user@example.com", .str "John", .str "Doe",
        .str "abcdefg1", .str "differs9"⟩ = ⟨false, ["Passwords do not match"]⟩ :=
  ⟨fun u => ⟨InputVal.reg_errors u, InputVal.res_iff _ (InputVal.registration_inv u)⟩,
   by decide⟩

/-- C8: for non-empty string input the password validator accepts exactly
the passwords of length 8 to 128 containing at least one ASCII letter and
at least one digit, with no sanitization check; `"abcdefgh"` fails with
only the missing-number message and `"abcdefg1"` passes. -/
theorem C8_password_rules :
    (∀ p : String, p ≠ "" →
      ((InputVal.validatePassword (.str p)).isValid = true ↔
        (8 ≤ p.length ∧ p.length ≤ 128 ∧
         p.data.any InputVal.isAlphaB = true ∧ p.data.any InputVal.isDigitB = true))) ∧
    (InputVal.validatePassword (.str "abcdefgh")).isValid = false ∧
    (InputVal.validatePassword (.str "abcdefgh")).errors =
      ["Password must contain at least one number"] ∧
    (InputVal.validatePassword (.str "abcdefg1")).isValid = true := by
  refine ⟨fun p hp => ?_, by decide, by decide, by decide⟩
  rw [InputVal.res_iff _ (InputVal.password_inv _), InputVal.password_errors p hp]
  simp only [List.append_eq_nil, InputVal.guard_nil_iff, and_assoc]
  constructor
  · rintro ⟨h1, h2, h3, h4⟩
    refine ⟨by omega, by omega, ?_, ?_⟩
    · revert h3; cases p.data.any InputVal.isAlphaB <;> simp
    · revert h4; cases p.data.any InputVal.isDigitB <;> simp
  · rintro ⟨h1, h2, h3, h4⟩
    refine ⟨by omega, by omega, ?_, ?_⟩
    · simp [h3]
    · simp [h4]

/-- Witness for C8 at `"abcdefg1"`. -/
theorem C8_password_rules_witness :
    (InputVal.validatePassword (.str "abcdefg1")).isValid = true ↔
      (8 ≤ ("abcdefg1" : String).length ∧ ("abcdefg1" : String).length ≤ 128 ∧
       "abcdefg1".data.any InputVal.isAlphaB = true ∧
       "abcdefg1".data.any InputVal.isDigitB = true) :=
  C8_password_rules.1 "abcdefg1" (by decide)

/-- C9: any title whose sanitized form matches an SQL-injection pattern is
rejected with the invalid-content message added exactly once, and the
concrete length-admissible title `"SELECT * FROM users WHERE 1=1"` is
rejected with that message in its error list. -/
theorem C9_title_sql_rejection :
    (∀ s : String, InputVal.sqlAny (InputVal.sanitizeStr s).data = true →
      (InputVal.validatePostTitle (.str s)).isValid = false ∧
      (InputVal.validatePostTitle (.str s)).errors.count "Title contains invalid content" = 1) ∧
    ((InputVal.validatePostTitle (.str "SELECT * FROM users WHERE 1=1")).isValid = false ∧
     "Title contains invalid content" ∈
       (InputVal.validatePostTitle (.str "SELECT * FROM users WHERE 1=1")).errors ∧
     5 ≤ ("SELECT * FROM users WHERE 1=1" : String).length ∧
     ("SELECT * FROM users WHERE 1=1" : String).length ≤ 200) := by
  refine ⟨fun s hs => ?_, by decide, by decide, by decide, by decide⟩
  by_cases h0 : s = ""
  · rw [h0] at hs
    exact absurd hs (by decide)
  · have he := InputVal.title_errors s h0
    have hne : (InputVal.validatePostTitle (.str s)).errors ≠ [] := by
      rw [he]
      simp [hs]
    constructor
    · cases hv : (InputVal.validatePostTitle (.str s)).isValid
      · rfl
      · exact absurd ((InputVal.res_iff _ (InputVal.title_inv (.str s))).mp hv) hne
    · rw [he]
      rw [List.count_append, List.count_append, List.count_append]
      rw [InputVal.count_guard_zero (by decide), InputVal.count_guard_zero (by decide),
        InputVal.count_guard_zero (by decide)]
      simp [hs]

/-- Witness for C9 at the concrete SQL-shaped title. -/
theorem C9_title_sql_rejection_witness :
    (InputVal.validatePostTitle (.str "SELECT * FROM users WHERE 1=1")).isValid = false ∧
    (InputVal.validatePostTitle
      (.str "SELECT * FROM users WHERE 1=1")).errors.count "Title contains invalid content" = 1 :=
  C9_title_sql_rejection.1 "SELECT * FROM users WHERE 1=1" (by decide)

/-- C10: an empty-string confirmation value is falsy, so it is treated as
not supplied: the result is the same as with no confirmation value and the
mismatch error can never appear, whatever the password. -/
theorem C10_empty_confirmation (u : InputVal.RegistrationData)
    (h : u.confirmPassword = .str "") :
    InputVal.validateUserRegistration u =
      InputVal.validateUserRegistration { u with confirmPassword := .undef } ∧
    "Passwords do not match" ∉ (InputVal.validateUserRegistration u).errors := by
  constructor
  · cases u
    subst h
    rfl
  · rw [InputVal.reg_errors u, h]
    intro hm
    simp only [List.mem_append] at hm
    rcases hm with ((((hm | hm) | hm) | hm) | hm) | hm
    · exact InputVal.pdnm_username _ hm
    · exact InputVal.pdnm_email _ hm
    · exact InputVal.pdnm_name _ _ (Or.inl rfl) hm
    · exact InputVal.pdnm_name _ _ (Or.inr rfl) hm
    · exact InputVal.pdnm_password _ hm
    · simp [InputVal.jsTruthy] at hm

/-- Witness for C10: empty confirmation with a differing non-empty
password. -/
theorem C10_empty_confirmation_witness :
    InputVal.validateUserRegistration
      ⟨.str "validuser", .str "user@example.com", .str "John", .str "Doe",
        .str "abcdefg1", .str ""⟩ =
      InputVal.validateUserRegistration
        ⟨.str "validuser", .str "user@example.com", .str "John", .str "Doe",
          .str "abcdefg1", .undef⟩ ∧
    "Passwords do not match" ∉
      (InputVal.validateUserRegistration
        ⟨.str "validuser", .str "user@example.com", .str "John", .str "Doe",
          .str "abcdefg1", .str ""⟩).errors :=
  C10_empty_confirmation _ rfl

/-- C7: on every string already free of the sanitizer's targeted forms (no
sanitizer pattern matches anywhere in it), `sanitizeString` is idempotent:
sanitizing reduces to trimming, trimming preserves pattern-freeness, and
trimming is idempotent. -/
theorem C7_sanitize_idempotent_on_clean (s : String)
    (h : InputVal.saniCleanB s.data = true) :
    InputVal.sanitizeStr (InputVal.sanitizeStr s) = InputVal.sanitizeStr s ∧
    InputVal.sanitizeString (.str (InputVal.sanitizeString (.str s))) =
      InputVal.sanitizeString (.str s) := by
  have h1 := InputVal.sanitizeChars_of_clean h
  have h2 := InputVal.saniClean_trimJS (l := s.data) h
  have key : InputVal.sanitizeChars (InputVal.sanitizeChars s.data) =
      InputVal.sanitizeChars s.data := by
    rw [h1, InputVal.sanitizeChars_of_clean h2, InputVal.trimJS_idem]
  exact ⟨congrArg String.mk key, congrArg String.mk key⟩

/-- Witness for C7 at a concrete pattern-free string. -/
theorem C7_sanitize_idempotent_on_clean_witness :
    InputVal.saniCleanB ("hello world".data) = true ∧
    InputVal.sanitizeStr (InputVal.sanitizeStr "hello world") =
      InputVal.sanitizeStr "hello world" :=
  ⟨by decide, (C7_sanitize_idempotent_on_clean "hello world" (by decide)).1⟩

/-- C1 evaluated at the failing input: the ten `XSS_PATTERNS` are shared
`g`-flag regex objects, and `RegExp.prototype.test` advances the matching
object's `lastIndex` to the match end.  From the fresh module state, calling
`hasXSSContent` on `"<script>alert(1)</script>"` returns `true` and leaves
the script pattern's `lastIndex` at 25 (the end of the string); an
immediately repeated call on the same string then returns `false`, because
the script pattern searches from index 25 and no other pattern matches.  So
the operation is not a function of its input alone, contradicting the
claimed statelessness; the fresh-state call does return `true`. -/
theorem C1_hasXSSContent_stateful_bug :
    InputVal.hasXSSContentStateful [0, 0, 0, 0, 0, 0, 0, 0, 0, 0]
        "<script>alert(1)</script>" =
      (true, [25, 0, 0, 0, 0, 0, 0, 0, 0, 0]) ∧
    (InputVal.hasXSSContentStateful [25, 0, 0, 0, 0, 0, 0, 0, 0, 0]
        "<script>alert(1)</script>").1 = false ∧
    InputVal.hasXSSContent (.str "<script>alert(1)</script>") = true := by
  exact ⟨by decide, by decide, by decide⟩

/-- C5 counterexample: for the name `" "` (which sanitizes to the empty
string) the claimed unconditional check list contains the character-set
message, but `validateName` guards that check on the sanitized string being
non-empty and omits it. -/
theorem C5_counterexample_name_guard :
    InputVal.nameChecksUnconditional " " "Name" =
      ["Name contains invalid characters", "Name is required",
       "Name can only contain letters, spaces, hyphens, and apostrophes"] ∧
    (InputVal.validateName (.str " ") "Name").errors =
      ["Name contains invalid characters", "Name is required"] ∧
    (InputVal.validateName (.str " ") "Name").errors ≠
      InputVal.nameChecksUnconditional " " "Name" := by
  exact ⟨by decide, by decide, by decide⟩

/-- C5 as amended: after the required/type check, every field validator
accumulates the messages of its checks in the fixed documented order, each
check guarded only by its own predicate — except `validateName`'s
character-set check, which is additionally skipped when the sanitized
string is empty. -/
theorem C5_check_accumulation_amended :
    (∀ s : String, ¬ s = "" → (InputVal.validateEmail (.str s)).errors =
      (if InputVal.sanitizeStr s ≠ s then ["Email contains invalid characters"] else []) ++
      (if !InputVal.emailTest (InputVal.sanitizeStr s).data then
        ["Please enter a valid email address"] else []) ++
      (if (InputVal.sanitizeStr s).length > 100 then
        ["Email is too long (max 100 characters)"] else [])) ∧
    (∀ s : String, ¬ s = "" → (InputVal.validateUsername (.str s)).errors =
      (if InputVal.sanitizeStr s ≠ s then ["Username contains invalid characters"] else []) ++
      (if (InputVal.sanitizeStr s).length < 3 then
        ["Username must be at least 3 characters long"] else []) ++
      (if (InputVal.sanitizeStr s).length > 50 then
        ["Username is too long (max 50 characters)"] else []) ++
      (if !InputVal.usernameOK (InputVal.sanitizeStr s).data then
        ["Username can only contain letters, numbers, and underscores"] else [])) ∧
    (∀ (s fieldName : String), ¬ s = "" → (InputVal.validateName (.str s) fieldName).errors =
      (if InputVal.sanitizeStr s ≠ s then [fieldName ++ " contains invalid characters"] else []) ++
      (if (InputVal.sanitizeStr s).length < 1 then [fieldName ++ " is required"] else []) ++
      (if (InputVal.sanitizeStr s).length > 50 then
        [fieldName ++ " is too long (max 50 characters)"] else []) ++
      (if InputVal.sanitizeStr s ≠ "" ∧ !InputVal.nameOK (InputVal.sanitizeStr s).data then
        [fieldName ++ " can only contain letters, spaces, hyphens, and apostrophes"] else [])) ∧
    (∀ s : String, ¬ s = "" → (InputVal.validatePassword (.str s)).errors =
      (if s.length < 8 then ["Password must be at least 8 characters long"] else []) ++
      (if s.length > 128 then ["Password is too long (max 128 characters)"] else []) ++
      (if !s.data.any InputVal.isAlphaB then ["Password must contain at least one letter"] else []) ++
      (if !s.data.any InputVal.isDigitB then ["Password must contain at least one number"] else [])) ∧
    (∀ s : String, ¬ s = "" → (InputVal.validatePostTitle (.str s)).errors =
      (if InputVal.sanitizeStr s ≠ s then ["Title contains invalid characters"] else []) ++
      (if (InputVal.sanitizeStr s).length < 5 then
        ["Title must be at least 5 characters long"] else []) ++
      (if (InputVal.sanitizeStr s).length > 200 then
        ["Title is too long (max 200 characters)"] else []) ++
      (if InputVal.sqlAny (InputVal.sanitizeStr s).data then
        ["Title contains invalid content"] else [])) ∧
    (∀ s : String, ¬ s = "" → (InputVal.validatePostContent (.str s)).errors =
      (if InputVal.sanitizeStr s ≠ s then ["Content contains invalid characters"] else []) ++
      (if (InputVal.sanitizeStr s).length < 10 then
        ["Content must be at least 10 characters long"] else []) ++
      (if (InputVal.sanitizeStr s).length > 10000 then
        ["Content is too long (max 10,000 characters)"] else []) ++
      (if InputVal.sqlAny (InputVal.sanitizeStr s).data then
        ["Content contains invalid content"] else [])) :=
  ⟨InputVal.email_errors, InputVal.username_errors,
   fun s fieldName h => InputVal.name_errors s fieldName h,
   InputVal.password_errors, InputVal.title_errors, InputVal.content_errors⟩

/-- Witness for the amended C5 at a concrete string whose sanitized form
differs (a leading space is trimmed). -/
theorem C5_check_accumulation_amended_witness :
    (InputVal.validatePassword (.str " abc")).errors =
      (if (" abc" : String).length < 8 then ["Password must be at least 8 characters long"] else []) ++
      (if (" abc" : String).length > 128 then ["Password is too long (max 128 characters)"] else []) ++
      (if !" abc".data.any InputVal.isAlphaB then
        ["Password must contain at least one letter"] else []) ++
      (if !" abc".data.any InputVal.isDigitB then
        ["Password must contain at least one number"] else []) :=
  C5_check_accumulation_amended.2.2.2.1 " abc" (by decide)

/-- C6 counterexample: the script pattern's `.` does not match line
terminators (`s` flag absent), so a script block with multi-line content
is not removed, while the claimed sanitizer removes it; and the
event-handler pattern `on\w+\s*=\s*['"]*[^'"]*['"]` also strips unquoted
values up to a later quote, which the claimed strictly-quoted form leaves
alone. -/
theorem C6_counterexample_sanitizer :
    InputVal.sanitizeString (.str "<script>a\nb</script>") ≠
      InputVal.sanitizeSpec (.str "<script>a\nb</script>") ∧
    InputVal.sanitizeString (.str "<script>a\nb</script>") = "<script>a\nb</script>" ∧
    InputVal.sanitizeSpec (.str "<script>a\nb</script>") = "" ∧
    InputVal.sanitizeString (.str "a onclick=x\" b") = "a  b" ∧
    InputVal.sanitizeSpec (.str "a onclick=x\" b") = "a onclick=x\" b" := by
  exact ⟨by decide, by decide, by decide, by decide, by decide⟩

/-- C6 as amended: non-string input maps to the empty string; string input
passes, in sequence on the progressively cleaned string, script-block
removal (case-insensitive, content not crossing line terminators),
event-handler removal (optionally/mismatched-quoted values included),
`javascript:`/`vbscript:` prefix removal, and back-reference-paired
dangerous-tag removal, followed by a final trim; with concrete
demonstrations of each pass, of the back-reference pairing and of the
trim. -/
theorem C6_sanitizer_passes_amended :
    (∀ v : InputVal.JSVal, InputVal.isStringV v = false → InputVal.sanitizeString v = "") ∧
    (∀ s : String, InputVal.sanitizeString (.str s) =
      String.mk (InputVal.trimJS (InputVal.scrub InputVal.mTags (InputVal.scrub InputVal.mVb
        (InputVal.scrub InputVal.mJs (InputVal.scrub InputVal.mHandler
          (InputVal.scrub InputVal.mScript s.data))))))) ∧
    InputVal.sanitizeString (.str "<SCRIPT a=1>x</SCRIPT>y") = "y" ∧
    InputVal.sanitizeString (.str "a onclick=\"x\" b") = "a  b" ∧
    InputVal.sanitizeString (.str "a JaVaScRiPt:x vbscript:y") = "a x y" ∧
    InputVal.sanitizeString (.str "<iframe a>x</iframe>y") = "y" ∧
    InputVal.sanitizeString (.str "<iframe>x</object>y") = "<iframe>x</object>y" ∧
    InputVal.sanitizeString (.str "  a  ") = "a" := by
  refine ⟨?_, fun s => rfl, by decide, by decide, by decide, by decide, by decide, by decide⟩
  intro v h
  cases v with
  | str s => simp [InputVal.isStringV] at h
  | num n => rfl
  | boolean b => rfl
  | nullV => rfl
  | undef => rfl

/-- Witness for the amended C6 at the non-string input `0`. -/
theorem C6_sanitizer_passes_amended_witness :
    InputVal.sanitizeString (.num 0) = "" :=
  C6_sanitizer_passes_amended.1 (.num 0) rfl
